import Mathlib

/-!
# Verification of the UBA-Actuator device-communication layer

Shallow embedding of the repository's Python sources:

* `bluetooth_manager.py` — serial transport (`BluetoothManager`), command
  builder (`CommandProtocol`) and the response-line decoder `parse_response`;
* `actuator_controller.py` — the application-level session logic: response
  dispatch (`_process_response`), cycle-run commands (`_adjust_cycles`,
  `_start_cycles`) and the OTA upload protocol (`_start_ota_upload`,
  `_ota_upload_thread`, `_abort_ota_upload`, `_ota_finish`).

Python strings are modelled as `List Char`; Python `dict`s as insertion-ordered
association lists with in-place update; Python floats that the code only ever
uses on exactly representable values (progress fractions of the form k/2^n,
the fixed timeouts) are modelled as rationals.  Environment interactions
(whether a serial write raises, whether the port opens, which lines arrive
within a wait window, the flag values observed at the OTA loop's checkpoints)
are passed as explicit parameters, so every function is a pure, executable
state transformer.
-/

namespace UBA

/-- A Python `str`, modelled as its list of characters. -/
abbrev PyStr := List Char

/-- Python `c in s` for a single-character needle (used by the source's
`":" not in response`, `"=" in pair` tests). -/
def pyContainsChar (c : Char) (s : PyStr) : Bool :=
  s.any (fun x => x == c)

/-- Python `s.split(sep, 1)` for a one-character separator: the part before
the first occurrence, and — when the separator occurs — the part after it. -/
def pySplitOnce (c : Char) : PyStr → PyStr × Option PyStr
  | [] => ([], none)
  | x :: xs =>
    if x == c then ([], some xs)
    else
      let r := pySplitOnce c xs
      (x :: r.1, r.2)

/-- Python `s.split(sep)` for a one-character separator: splits at every
occurrence; `"".split(sep) = [""]`, and a trailing separator yields a
trailing empty piece, exactly as in Python. -/
def pySplitAll (c : Char) : PyStr → List PyStr
  | [] => [[]]
  | x :: xs =>
    if x == c then [] :: pySplitAll c xs
    else
      match pySplitAll c xs with
      | [] => [[x]]
      | h :: t => (x :: h) :: t

/-- The ASCII whitespace characters stripped by Python's `str.strip()` and
ignored at the ends by `int()` (the embedding is restricted to ASCII input,
which is all the serial protocol carries). -/
def pyIsSpace (c : Char) : Bool :=
  c == ' ' || c == '\t' || c == '\n' || c == '\r' ||
  c == Char.ofNat 11 || c == Char.ofNat 12

/-- Python `s.strip()` (ASCII whitespace). -/
def pyStrip (s : PyStr) : PyStr :=
  ((s.dropWhile pyIsSpace).reverse.dropWhile pyIsSpace).reverse

/-- Validity of the tail of a Python integer literal's digit part: digits with
single underscores allowed only between digits (`int("1_000")` is legal,
`int("1__0")`, `int("1_")` are not).  The head digit has already been seen. -/
def digitsOkAux : PyStr → Bool
  | [] => true
  | c :: rest =>
    if c == '_' then
      match rest with
      | [] => false
      | d :: rest2 => d.isDigit && digitsOkAux rest2
    else c.isDigit && digitsOkAux rest

/-- Numeric value of a list of ASCII digits (most significant first). -/
def digitsVal (l : PyStr) : Nat :=
  l.foldl (fun a c => 10 * a + (c.toNat - 48)) 0

/-- The digit part of Python `int()`: a nonempty digit string with optional
single underscores between digits. -/
def pyIntDigits (s : PyStr) : Option Nat :=
  match s with
  | [] => none
  | c :: rest =>
    if c.isDigit && digitsOkAux rest then
      some (digitsVal (s.filter (fun x => x != '_')))
    else none

/-- Python `int(s)` on ASCII input: surrounding whitespace stripped, optional
single sign, then digits (with legal underscores); `none` models the
`ValueError` the source catches. -/
def pyInt (s : PyStr) : Option Int :=
  match pyStrip s with
  | [] => none
  | c :: rest =>
    if c == '+' then (pyIntDigits rest).map Int.ofNat
    else if c == '-' then (pyIntDigits rest).map (fun n => -(n : Int))
    else (pyIntDigits (c :: rest)).map Int.ofNat

/-- Python `needle in hay` substring test (used by `"OTA_READY" in data`,
`"OTA" in data`). -/
def pyInStr (needle hay : PyStr) : Bool :=
  hay.tails.any (fun t => needle.isPrefixOf t)

/-- A Python dict value as stored by `parse_response`: the `int(value)`
result when conversion succeeds, else the raw string. -/
inductive PyVal where
  | int (n : Int)
  | str (s : PyStr)
deriving DecidableEq, Repr

/-- A Python `dict` keyed by strings: insertion-ordered association list. -/
abbrev PyDict := List (PyStr × PyVal)

/-- Python `d[k] = v`: update in place if the key exists, else append. -/
def dictInsert : PyDict → PyStr → PyVal → PyDict
  | [], k, v => [(k, v)]
  | (k', v') :: rest, k, v =>
    if k' = k then (k', v) :: rest else (k', v') :: dictInsert rest k v

/-- Python `d.get(k, dflt)`. -/
def dictGet (d : PyDict) (k : PyStr) (dflt : PyVal) : PyVal :=
  match d.find? (fun p => p.1 == k) with
  | some p => p.2
  | none => dflt

/-- The body of `parse_response`'s pair loop (`bluetooth_manager.py`
lines 278-285): pairs without `=` are skipped; the value is `int`-converted
when possible. -/
def srcPairStep (d : PyDict) (pair : PyStr) : PyDict :=
  if pyContainsChar '=' pair then
    match pySplitOnce '=' pair with
    | (key, some value) =>
      (match pyInt value with
       | some n => dictInsert d key (PyVal.int n)
       | none => dictInsert d key (PyVal.str value))
    | (_, none) => d
  else d

/-- The decoder `parse_response` (`bluetooth_manager.py` lines 261-287),
embedded
statement by statement from the source. -/
def parse_response (response : PyStr) : PyStr × PyDict :=
  if ¬ pyContainsChar ':' response then (response, [])
  else
    match pySplitOnce ':' response with
    | (response_type, none) => (response_type, [])
    | (response_type, some rest) =>
      if rest = [] then (response_type, [])
      else (response_type, (pySplitAll ',' rest).foldl srcPairStep [])

/-! ## The decoder as the specification words it

The spec describes decoding as: split once on the *first* `:`; the left side
is the kind; the non-empty right side splits on `,` into `key=value` pairs,
values `int`-converted when possible; pairs with no `=` silently skipped.
Stated here with `takeWhile`/`dropWhile` (rather than the source's
`split(sep, 1)`) so that agreement with `parse_response` is a theorem, not a
restatement. -/

/-- One `key=value` pair as the spec describes it: key is everything before
the first `=`, value everything after it. -/
def specPairStep (d : PyDict) (pair : PyStr) : PyDict :=
  if pyContainsChar '=' pair then
    let key := pair.takeWhile (fun x => x != '=')
    let value := (pair.dropWhile (fun x => x != '=')).tail
    match pyInt value with
    | some n => dictInsert d key (PyVal.int n)
    | none => dictInsert d key (PyVal.str value)
  else d

/-- The response decoder as described by the specification text. -/
def parse_response_descr (s : PyStr) : PyStr × PyDict :=
  if pyContainsChar ':' s then
    let kind := s.takeWhile (fun x => x != ':')
    let rest := (s.dropWhile (fun x => x != ':')).tail
    if rest = [] then (kind, [])
    else (kind, (pySplitAll ',' rest).foldl specPairStep [])
  else (s, [])

/-! ## Decimal rendering (Python `str` of an `int`) and the response encoder

There is no response *encoder* in the repository (responses originate on the
device); the round-trip claim's `encode-as-response(K, fields)` is therefore
modelled from the spec: the line `K:k1=v1,k2=v2,...` with decimal integer
values, exactly the format `parse_response` decodes. -/

/-- The ASCII digit character of `d < 10`. -/
def digitChar (d : Nat) : Char := Char.ofNat (48 + d)

/-- Decimal digits of `n`, most significant first, by structural recursion on
a fuel bound (so it evaluates inside `decide`); adequate whenever `n < fuel`. -/
def renderNatAux : Nat → Nat → PyStr
  | 0, _ => []
  | fuel + 1, n =>
    if n < 10 then [digitChar n]
    else renderNatAux fuel (n / 10) ++ [digitChar (n % 10)]

/-- Decimal rendering of a natural number (Python `str(n)` for `n ≥ 0`). -/
def renderNat (n : Nat) : PyStr := renderNatAux (n + 1) n

/-- Python `str(v)` for an `int` value. -/
def renderInt (v : Int) : PyStr :=
  if v < 0 then '-' :: renderNat v.natAbs else renderNat v.toNat

/-- Python `sep.join(pieces)` for a one-character separator. -/
def intercalatePy (c : Char) : List PyStr → PyStr
  | [] => []
  | [x] => x
  | x :: y :: t => x ++ c :: intercalatePy c (y :: t)

/-- Modelled from the spec: one `key=value` field of a response line
(the repository has no response encoder; the device produces these lines). -/
def encodePair (kv : PyStr × Int) : PyStr :=
  kv.1 ++ '=' :: renderInt kv.2

/-- Modelled from the spec: `encode-as-response(K, fields)` — the kind,
a colon, and the comma-separated `key=value` fields. -/
def encodeResponse (K : PyStr) (fields : List (PyStr × Int)) : PyStr :=
  K ++ ':' :: intercalatePy ',' (fields.map encodePair)

/-! ## BluetoothManager (`bluetooth_manager.py` lines 13-186)

State model of the transport.  `threading.Event` becomes a `Bool`; the serial
handle becomes an `Option` record.  The environment decides whether an open
or a write raises `SerialException`; that decision is a `Bool` argument
(`openOk` / `writeOk`).  Each operation returns, besides the new state, the
bytes it wrote to the port and the connection-changed notifications it fired
(fired only when the `on_connection_changed` callback is registered, as in
the source's `if self.on_connection_changed:` guards). -/

/-- An open `serial.Serial` handle, as configured in `connect`. -/
structure SerialHandle where
  port : PyStr
  baudrate : Int
  timeout : ℚ
deriving DecidableEq, Repr

/-- The mutable fields of `BluetoothManager` relevant to its contract.
`stop_reader` is the `threading.Event` signalling the reader loop;
`has_conn_callback` records whether `on_connection_changed` is set. -/
structure BTState where
  serial_port : Option SerialHandle
  connected : Bool
  port_name : Option PyStr
  stop_reader : Bool
  has_conn_callback : Bool
deriving DecidableEq, Repr

/-- A fired `on_connection_changed` notification. -/
inductive BTNotif where
  | connChanged (connected : Bool)
deriving DecidableEq, Repr

/-- Bytes written to the serial port: an encoded command line
(`send_command`) or a raw OTA chunk (`send_bytes`). -/
inductive Written where
  | line (s : PyStr)
  | raw (data : List Nat)
deriving DecidableEq, Repr

/-- Method `BluetoothManager._handle_disconnect` (lines 174-178): clears the
connected flag and notifies; note it does *not* clear the handle. -/
def handle_disconnect (s : BTState) : BTState × List BTNotif :=
  ({ s with connected := false },
   if s.has_conn_callback then [BTNotif.connChanged false] else [])

/-- Method `BluetoothManager.disconnect` (lines 99-117): signal the reader to
stop,
join it (no state effect), close the handle with errors suppressed (no state
effect), clear handle / connected flag / port name, then notify
`connection changed: false` — unconditionally, connected or not. -/
def disconnect (s : BTState) : BTState × List BTNotif :=
  ({ s with stop_reader := true, serial_port := none,
            connected := false, port_name := none },
   if s.has_conn_callback then [BTNotif.connChanged false] else [])

/-- Method `BluetoothManager.send_command` (lines 119-132): guard on
`connected`/handle, else write `command.strip() + "\n"` and flush; a raising
write returns `False` through `_handle_disconnect`. -/
def send_command (s : BTState) (command : PyStr) (writeOk : Bool) :
    BTState × Bool × List Written × List BTNotif :=
  if ¬ s.connected ∨ s.serial_port = none then (s, false, [], [])
  else if writeOk then
    (s, true, [Written.line (pyStrip command ++ ['\n'])], [])
  else
    let (s', n) := handle_disconnect s
    (s', false, [], n)

/-- Method `BluetoothManager.send_bytes` (lines 134-146): same guard and
failure
handling as `send_command`, but raw bytes, no framing. -/
def send_bytes (s : BTState) (data : List Nat) (writeOk : Bool) :
    BTState × Bool × List Written × List BTNotif :=
  if ¬ s.connected ∨ s.serial_port = none then (s, false, [], [])
  else if writeOk then (s, true, [Written.raw data], [])
  else
    let (s', n) := handle_disconnect s
    (s', false, [], n)

/-- Method `BluetoothManager.connect` (lines 61-97): disconnect first if
connected;
then either the `serial.Serial` open succeeds — store the handle and port
name, set connected, restart the reader, notify `true`, sleep 500 ms and send
the `PING` probe (whose own write may fail) — or it raises, and the except
clause clears the connected flag and the handle and returns `False`. -/
def connect (s : BTState) (port : PyStr) (openOk : Bool) (pingWriteOk : Bool) :
    BTState × Bool × List Written × List BTNotif :=
  let pre := if s.connected then disconnect s else (s, [])
  if openOk then
    let s1 : BTState :=
      { pre.1 with serial_port := some ⟨port, 115200, 2⟩, port_name := some port,
                   connected := true, stop_reader := false }
    let n1 := if s1.has_conn_callback then [BTNotif.connChanged true] else []
    let r := send_command s1 "PING".data pingWriteOk
    (r.1, true, r.2.2.1, pre.2 ++ n1 ++ r.2.2.2)
  else
    ({ pre.1 with connected := false, serial_port := none }, false, [], pre.2)

/-! ## ActuatorControllerApp session state (`actuator_controller.py`)

The state fields of the application the claims are about.  Python's dynamic
typing lets `current_cycle` / `target_cycles` hold whatever `resp_data.get`
returns (an `int` or a `str`), so they are `PyVal`; `cycles_var` is a Tk
`IntVar` and stays an integer.  UI-only side effects (labels, button states,
the cycle progress bar, the serial log) are not part of the state; the
commands a handler pushes through `bt_manager.send_command` are returned as a
list (the source ignores their boolean results). -/

/-- Python `str(v)` of a stored dict value, as an f-string renders it. -/
def pyStrOfVal : PyVal → PyStr
  | .int n => renderInt n
  | .str s => s

/-- The session-relevant mutable fields of `ActuatorControllerApp`. -/
structure AppState where
  is_running : Bool
  is_paused : Bool
  current_cycle : PyVal
  target_cycles : PyVal
  infinite_cycles : Bool
  cycles_var : Int
  status_var : PyStr
  device_version_var : PyStr
  ota_in_progress : Bool
  ota_abort_flag : Bool
  ota_ready_event : Bool
  ota_error_message : Option PyStr
  ota_progress_var : ℚ
  ota_status_var : PyStr
deriving DecidableEq, Repr

/-- Method `_ota_finish` (lines 733-748), state part: clear the in-progress
flag,
set the progress bar to 1 on success / 0 otherwise, show the message.  The
ready latch, abort flag and error message are *not* touched here — they are
re-cleared at the start of the next session. -/
def ota_finish_state (s : AppState) (msg : PyStr) (success : Bool) : AppState :=
  { s with ota_in_progress := false,
           ota_progress_var := if success then 1 else 0,
           ota_status_var := msg }

/-- Method `_process_response` (lines 918-964): dispatch one received line.
The
raw-substring checks (`"OTA_READY" in data`, `"OTA" in data`) are against the
whole line, not the parsed fields, exactly as in the source. -/
def process_response (s : AppState) (data : PyStr) : AppState :=
  let pr := parse_response data
  let resp_type := pr.1
  let resp_data := pr.2
  if resp_type = "PONG".data then
    { s with status_var := "Connected - Ready".data }
  else if resp_type = "STATUS".data then
    let state := dictGet resp_data "STATE".data (PyVal.str "UNKNOWN".data)
    let pos := dictGet resp_data "POS".data (PyVal.int 0)
    { s with status_var :=
        pyStrOfVal state ++ " - Position: ".data ++ pyStrOfVal pos ++ "°".data }
  else if resp_type = "PROGRESS".data then
    let cycle := dictGet resp_data "CYCLE".data (PyVal.int 0)
    let target := dictGet resp_data "TARGET".data (PyVal.int 0)
    let s1 := { s with current_cycle := cycle }
    if ¬ s.infinite_cycles then { s1 with target_cycles := target } else s1
  else if resp_type = "COMPLETE".data then
    let cycles := dictGet resp_data "CYCLES".data (PyVal.int 0)
    { s with
        status_var :=
          "Complete - ".data ++ pyStrOfVal cycles ++ " cycles finished".data,
        is_running := false,
        is_paused := false }
  else if resp_type = "OK".data then
    if pyInStr "OTA_READY".data data then
      { s with ota_status_var := "Device ready - sending...".data,
               ota_ready_event := true }
    else s
  else if resp_type = "VERSION".data then
    let version :=
      if pyContainsChar ':' data then
        match pySplitOnce ':' data with
        | (_, some v) => v
        | (_, none) => "Unknown".data
      else "Unknown".data
    { s with device_version_var := version }
  else if resp_type = "OTA_PROGRESS".data then
    match pySplitAll ':' data with
    | _ :: p :: _ =>
      (match pyInt p with
       | some n => { s with ota_progress_var := (n : ℚ) / 100 }
       | none => s)
    | _ => s
  else if resp_type = "ERR".data then
    let s1 := { s with status_var := "Error: ".data ++ data }
    if pyInStr "OTA".data data then
      let s2 := { s1 with ota_error_message := some data, ota_ready_event := true }
      if s.ota_in_progress then
        ota_finish_state s2 ("OTA Error: ".data ++ data) false
      else s2
    else s1
  else s

/-- Builder `CommandProtocol.set_cycles` (`bluetooth_manager.py` 216-218). -/
def cmd_set_cycles (count : Int) : PyStr :=
  "SET_CYCLES:".data ++ renderInt count

/-- Builder `CommandProtocol.start` (`bluetooth_manager.py` 220-222). -/
def cmd_start : PyStr := "START".data

/-- Method `_adjust_cycles` (lines 801-807): clamp `cycles_var + delta` to
`[1, 100000]`, store it, send `SET_CYCLES:<new>`. -/
def adjust_cycles (s : AppState) (delta : Int) : AppState × List PyStr :=
  let new_val := max 1 (min 100000 (s.cycles_var + delta))
  ({ s with cycles_var := new_val, target_cycles := PyVal.int new_val },
   [cmd_set_cycles new_val])

/-- Method `_start_cycles` (lines 837-856); `btConnected` is
`bt_manager.is_connected()`.  When disconnected only a warning dialog shows
and nothing is sent. -/
def start_cycles (s : AppState) (btConnected : Bool) : AppState × List PyStr :=
  if ¬ btConnected then (s, [])
  else
    let s1 := { s with current_cycle := PyVal.int 0 }
    let step :=
      if s.infinite_cycles then (s1, cmd_set_cycles 0)
      else ({ s1 with target_cycles := PyVal.int s.cycles_var },
            cmd_set_cycles s.cycles_var)
    ({ step.1 with is_running := true, is_paused := false,
                   status_var := "Running cycles...".data },
     [step.2, cmd_start])

/-- Method `_abort_ota_upload` (lines 655-659): only when an upload is in
progress,
set the abort flag and transmit `OTA_ABORT`. -/
def abort_ota_upload (s : AppState) : AppState × List PyStr :=
  if s.ota_in_progress then
    ({ s with ota_abort_flag := true }, ["OTA_ABORT".data])
  else (s, [])

/-- Method `_start_ota_upload` (lines 646-653), state part after all guards
and the
confirmation dialog pass: mark in progress, clear the abort flag, reset the
progress bar. -/
def start_ota_upload_state (s : AppState) : AppState :=
  { s with ota_in_progress := true, ota_abort_flag := false,
           ota_progress_var := 0, ota_status_var := "Starting upload...".data }

/-- Method `_ota_upload_thread` prologue (lines 663-672): clear the ready
latch and
error message, send `OTA_START:<fileSize>`, show the waiting status. -/
def ota_thread_begin (s : AppState) (fileSize : Nat) : AppState × List PyStr :=
  ({ s with ota_ready_event := false, ota_error_message := none,
            ota_status_var := "Waiting for device ready...".data },
   ["OTA_START:".data ++ renderNat fileSize])

/-- The ready-wait timeout (`ready_timeout = 5.0`, line 665). -/
def ota_ready_timeout : ℚ := 5

/-- Outcome of the awaiting-ready phase of `_ota_upload_thread`. -/
inductive AwaitOutcome where
  | finished (msg : PyStr)
  | returned
  | proceed
deriving DecidableEq, Repr

/-- Method `_ota_upload_thread`, lines 674-686: the 5 s wait on the ready
latch.
`lines` are the responses dispatched (on the UI thread) within the wait
window; the wait result is the latch after processing them.  On timeout:
`Failed(device error)` if an error message is present, else
`Failed("Timeout waiting for device ready")`.  Latch set with an error
present: bare `return` (the ERR dispatch already finished the session).
Latch set and abort flag observed: `Failed("Aborted by user")`. -/
def ota_await_ready (s : AppState) (lines : List PyStr) : AppState × AwaitOutcome :=
  let s1 := lines.foldl process_response s
  if ¬ s1.ota_ready_event then
    match s1.ota_error_message with
    | some m =>
      (ota_finish_state s1 ("Device error: ".data ++ m) false,
       AwaitOutcome.finished ("Device error: ".data ++ m))
    | none =>
      (ota_finish_state s1 "Timeout waiting for device ready".data false,
       AwaitOutcome.finished "Timeout waiting for device ready".data)
  else if s1.ota_error_message.isSome then (s1, AwaitOutcome.returned)
  else if s1.ota_abort_flag then
    (ota_finish_state s1 "Aborted by user".data false,
     AwaitOutcome.finished "Aborted by user".data)
  else (s1, AwaitOutcome.proceed)

/-- The OTA chunk size (`chunk_size = 512`, line 664). -/
def ota_chunk_size : Nat := 512

/-- The values the transfer loop's per-iteration checkpoints observe at
iteration `i`: the abort flag, `bt_manager.is_connected()`, whether more than
5 s passed since the last successful send, and whether `send_bytes`
succeeds. -/
structure OtaEnv where
  abortAt : Nat → Bool
  connectedAt : Nat → Bool
  stallAt : Nat → Bool
  sendOkAt : Nat → Bool

/-- An observable event of the transfer loop: a chunk written to the port, or
a progress notification (fraction, bytes sent, total). -/
inductive OtaEvent where
  | chunkSent (size : Nat)
  | progress (frac : ℚ) (bytesSent total : Nat)
deriving DecidableEq, Repr

/-- How the transfer loop ended: the `_ota_finish` message and success flag. -/
inductive OtaLoopResult where
  | finished (msg : PyStr) (success : Bool)
deriving DecidableEq, Repr

/-- Method `_ota_upload_thread` transfer loop (lines 688-723), structurally
recursive on a fuel bound so it evaluates inside `decide` (one recursive call
consumes at least one byte of the file, so any `fuel > file.length` is
adequate; the fuel-0 branch is unreachable then).  While bytes remain: check
abort / connection / stall, read the next 512-byte chunk (an empty read
breaks out to the verify step), send it raw, count it and notify progress
`bytes_sent / file_size`.  After the loop (all bytes sent or an empty read):
verify delay, then `Succeeded`. -/
def ota_transfer_loopF (env : OtaEnv) (fileSize : Nat) :
    Nat → List Nat → Nat → Nat → OtaLoopResult × List OtaEvent
  | 0, _, _, _ => (.finished [] false, [])
  | fuel + 1, file, bytes_sent, i =>
    if bytes_sent < fileSize then
      if env.abortAt i then (.finished "Aborted by user".data false, [])
      else if ¬ env.connectedAt i then (.finished "Connection lost".data false, [])
      else if env.stallAt i then (.finished "Upload timeout".data false, [])
      else
        if file.take ota_chunk_size = [] then
          (.finished "Upload complete - device restarting".data true, [])
        else if ¬ env.sendOkAt i then (.finished "Failed to send data".data false, [])
        else
          let bs := bytes_sent + (file.take ota_chunk_size).length
          let r := ota_transfer_loopF env fileSize fuel (file.drop ota_chunk_size) bs (i + 1)
          (r.1, OtaEvent.chunkSent (file.take ota_chunk_size).length ::
                OtaEvent.progress ((bs : ℚ) / (fileSize : ℚ)) bs fileSize :: r.2)
    else (.finished "Upload complete - device restarting".data true, [])

/-- The transfer loop at its adequate fuel. -/
def ota_transfer_loop (env : OtaEnv) (fileSize : Nat) (file : List Nat)
    (bytes_sent : Nat) (i : Nat) : OtaLoopResult × List OtaEvent :=
  ota_transfer_loopF env fileSize (file.length + 1) file bytes_sent i

/-- The raw-line condition under which `_process_response` latches the OTA
ready event via an `ERR` response: kind `ERR` and substring `OTA`. -/
def otaErrTrigger (l : PyStr) : Bool :=
  decide ((parse_response l).1 = "ERR".data) && pyInStr "OTA".data l

/-- The raw-line condition under which `_process_response` latches the OTA
ready event: an `OK` whose raw line contains `OTA_READY`, or an OTA-tagged
`ERR`. -/
def otaTrigger (l : PyStr) : Bool :=
  (decide ((parse_response l).1 = "OK".data) && pyInStr "OTA_READY".data l)
    || otaErrTrigger l

/-- Number of chunk writes in a transfer-loop event trace. -/
def countChunks (t : List OtaEvent) : Nat :=
  t.countP (fun e => match e with | OtaEvent.chunkSent _ => true | _ => false)

/-! # Lemmas and claim theorems -/

/-! ## Splitting characterization and the decoder equivalence (C1) -/

lemma pySplitOnce_eq (c : Char) (s : PyStr) :
    pySplitOnce c s =
      (s.takeWhile (fun x => x != c),
       if pyContainsChar c s then some ((s.dropWhile (fun x => x != c)).tail)
       else none) := by
  induction s with
  | nil => simp [pySplitOnce, pyContainsChar]
  | cons x xs ih =>
    by_cases hx : x = c
    · subst hx
      simp [pySplitOnce, pyContainsChar, List.takeWhile_cons, List.dropWhile_cons]
    · have hb : (x == c) = false := by simp [hx]
      simp [pySplitOnce, pyContainsChar, hb, hx, List.takeWhile_cons,
            List.dropWhile_cons, ih]

lemma srcPairStep_eq : srcPairStep = specPairStep := by
  funext d pair
  unfold srcPairStep specPairStep
  by_cases h : pyContainsChar '=' pair
  · simp only [h, if_true, pySplitOnce_eq]
  · simp [h]

/-- Claim C1 (`parse_response`, `bluetooth_manager.py` lines 261-287).
For every inbound line `s`: with no `:`, the result is `(s, {})`; otherwise
`s` splits on the *first* `:` into kind and data part; a non-empty data part
splits on `,` into `key=value` pairs with integer conversion attempted on
each value, and pairs without `=` are skipped.  `parse_response_descr` states
exactly this reading of the claim; the source decoder agrees with it on every
input, and both are total Lean functions, so no input can make the decoder
fail. -/
theorem parse_response_follows_spec (s : PyStr) :
    parse_response s = parse_response_descr s := by
  unfold parse_response parse_response_descr
  by_cases h : pyContainsChar ':' s
  · simp only [h, pySplitOnce_eq, srcPairStep_eq]
    simp
  · simp [h]

/-! ## Decimal rendering inverts `int()` parsing -/

lemma digitChar_isDigit {d : Nat} (h : d < 10) : (digitChar d).isDigit = true := by
  interval_cases d <;> decide

lemma digitChar_toNat {d : Nat} (h : d < 10) : (digitChar d).toNat = 48 + d := by
  interval_cases d <;> decide

lemma digitChar_plain {d : Nat} (h : d < 10) :
    (digitChar d == '_') = false ∧ (digitChar d == '+') = false ∧
    (digitChar d == '-') = false ∧ (digitChar d == ',') = false ∧
    (digitChar d == '=') = false ∧ (digitChar d == ':') = false ∧
    pyIsSpace (digitChar d) = false := by
  interval_cases d <;> decide

lemma mem_renderNatAux {fuel n : Nat} (h : n < fuel) :
    ∀ c ∈ renderNatAux fuel n, ∃ d, d < 10 ∧ c = digitChar d := by
  induction fuel generalizing n with
  | zero => omega
  | succ fuel ih =>
    intro c hc
    by_cases h10 : n < 10
    · simp [renderNatAux, h10] at hc
      exact ⟨n, h10, hc⟩
    · simp [renderNatAux, h10] at hc
      rcases hc with hc | hc
      · have hdiv : n / 10 < fuel :=
          lt_of_lt_of_le (Nat.div_lt_self (by omega) (by omega)) (by omega)
        exact ih hdiv c hc
      · exact ⟨n % 10, Nat.mod_lt _ (by omega), hc⟩

lemma renderNatAux_ne_nil {fuel n : Nat} (h : n < fuel) :
    renderNatAux fuel n ≠ [] := by
  cases fuel with
  | zero => omega
  | succ fuel =>
    by_cases h10 : n < 10 <;> simp [renderNatAux, h10]

lemma digitsVal_append (l : PyStr) (c : Char) :
    digitsVal (l ++ [c]) = 10 * digitsVal l + (c.toNat - 48) := by
  simp [digitsVal, List.foldl_append]

lemma digitsVal_renderNatAux {fuel n : Nat} (h : n < fuel) :
    digitsVal (renderNatAux fuel n) = n := by
  induction fuel generalizing n with
  | zero => omega
  | succ fuel ih =>
    by_cases h10 : n < 10
    · simp [renderNatAux, h10, digitsVal, digitChar_toNat h10]
    · have hdiv : n / 10 < fuel :=
        lt_of_lt_of_le (Nat.div_lt_self (by omega) (by omega)) (by omega)
      have hm : n % 10 < 10 := Nat.mod_lt _ (by omega)
      simp [renderNatAux, h10, digitsVal_append, ih hdiv, digitChar_toNat hm]
      omega

lemma digitsOkAux_all {l : PyStr}
    (h : ∀ c ∈ l, ∃ d, d < 10 ∧ c = digitChar d) : digitsOkAux l = true := by
  induction l with
  | nil => rfl
  | cons c rest ih =>
    obtain ⟨d, hd, rfl⟩ := h c (List.mem_cons_self c rest)
    have hrest := fun x hx => h x (List.mem_cons_of_mem _ hx)
    rw [digitsOkAux.eq_def]
    simp [(digitChar_plain hd).1, digitChar_isDigit hd, ih hrest]

lemma filter_ne_underscore {l : PyStr}
    (h : ∀ c ∈ l, (c == '_') = false) : l.filter (fun x => x != '_') = l := by
  induction l with
  | nil => rfl
  | cons c rest ih =>
    have hrest := fun x hx => h x (List.mem_cons_of_mem _ hx)
    have hb := h c (List.mem_cons_self c rest)
    simp [List.filter_cons, bne, hb, ih hrest]
    intro a ha
    simpa using hrest a ha

lemma dropWhile_eq_self_of {p : Char → Bool} {l : PyStr}
    (h : ∀ c ∈ l, p c = false) : l.dropWhile p = l := by
  cases l with
  | nil => rfl
  | cons c rest => simp [List.dropWhile_cons, h c (List.mem_cons_self c rest)]

lemma pyStrip_eq_self {l : PyStr}
    (h : ∀ c ∈ l, pyIsSpace c = false) : pyStrip l = l := by
  unfold pyStrip
  rw [dropWhile_eq_self_of h,
      dropWhile_eq_self_of (fun c hc => h c (List.mem_reverse.mp hc)),
      List.reverse_reverse]

lemma pyIntDigits_renderNat (n : Nat) : pyIntDigits (renderNat n) = some n := by
  have hlt : n < n + 1 := Nat.lt_succ_self n
  have hmem := mem_renderNatAux hlt
  cases hr : renderNatAux (n + 1) n with
  | nil => exact absurd hr (renderNatAux_ne_nil hlt)
  | cons c rest =>
    rw [hr] at hmem
    obtain ⟨d, hd, hc⟩ := hmem c (List.mem_cons_self c rest)
    have hrest : ∀ x ∈ rest, ∃ d, d < 10 ∧ x = digitChar d :=
      fun x hx => hmem x (List.mem_cons_of_mem _ hx)
    have hfilter : (c :: rest).filter (fun x => x != '_') = c :: rest := by
      refine filter_ne_underscore ?_
      intro x hx
      obtain ⟨e, he, rfl⟩ := hmem x hx
      exact (digitChar_plain he).1
    have hval : digitsVal (c :: rest) = n := by
      have := digitsVal_renderNatAux hlt
      rwa [hr] at this
    unfold renderNat
    rw [hr]
    unfold pyIntDigits
    rw [hfilter, hval]
    have hcd : c.isDigit = true := hc ▸ digitChar_isDigit hd
    simp [hcd, digitsOkAux_all hrest]

lemma renderNat_plain (n : Nat) :
    ∀ c ∈ renderNat n, (c == '_') = false ∧ (c == '+') = false ∧
      (c == '-') = false ∧ (c == ',') = false ∧ (c == '=') = false ∧
      (c == ':') = false ∧ pyIsSpace c = false := by
  intro c hc
  obtain ⟨d, hd, rfl⟩ := mem_renderNatAux (Nat.lt_succ_self n) c hc
  exact digitChar_plain hd

lemma renderNat_head_digit (n : Nat) :
    ∃ c rest, renderNat n = c :: rest ∧ (c == '+') = false ∧
      (c == '-') = false := by
  cases hr : renderNat n with
  | nil => exact absurd hr (renderNatAux_ne_nil (Nat.lt_succ_self n))
  | cons c rest =>
    have hc := renderNat_plain n c (hr ▸ List.mem_cons_self c rest)
    exact ⟨c, rest, rfl, hc.2.1, hc.2.2.1⟩

/-- Python `int(str(v)) = v`: parsing the decimal rendering of any integer
recovers it — the value half of the protocol round trip. -/
theorem pyInt_renderInt (v : Int) : pyInt (renderInt v) = some v := by
  by_cases hv : v < 0
  · have hstrip : pyStrip ('-' :: renderNat v.natAbs) = '-' :: renderNat v.natAbs := by
      refine pyStrip_eq_self ?_
      intro c hc
      rcases List.mem_cons.mp hc with rfl | hc
      · decide
      · exact (renderNat_plain _ c hc).2.2.2.2.2.2
    unfold renderInt
    rw [if_pos hv]
    unfold pyInt
    rw [hstrip]
    simp [pyIntDigits_renderNat]
    rw [abs_of_neg hv, neg_neg]
  · have hstrip : pyStrip (renderNat v.toNat) = renderNat v.toNat :=
      pyStrip_eq_self (fun c hc => (renderNat_plain _ c hc).2.2.2.2.2.2)
    unfold renderInt
    rw [if_neg hv]
    unfold pyInt
    rw [hstrip]
    obtain ⟨c, rest, hr, hplus, hminus⟩ := renderNat_head_digit v.toNat
    rw [hr]
    rw [← hr]
    simp only [hr, hplus, hminus, Bool.false_eq_true, if_false]
    rw [← hr, pyIntDigits_renderNat]
    have : (v.toNat : Int) = v := by omega
    simp [this]
/-! ## Split / join lemmas and the protocol round trip (C4) -/

lemma pySplitOnce_append_first {c : Char} {K : PyStr}
    (h : pyContainsChar c K = false) (rest : PyStr) :
    pySplitOnce c (K ++ c :: rest) = (K, some rest) := by
  induction K with
  | nil => simp [pySplitOnce]
  | cons x xs ih =>
    simp only [pyContainsChar, List.any_cons, Bool.or_eq_false_iff] at h
    simp [pySplitOnce, h.1, ih (by simpa [pyContainsChar] using h.2)]

lemma pySplitAll_single {c : Char} {x : PyStr}
    (h : pyContainsChar c x = false) : pySplitAll c x = [x] := by
  induction x with
  | nil => rfl
  | cons a as ih =>
    simp only [pyContainsChar, List.any_cons, Bool.or_eq_false_iff] at h
    rw [pySplitAll, if_neg (by simp [h.1]),
        ih (by simpa [pyContainsChar] using h.2)]

lemma pySplitAll_append {c : Char} {x : PyStr}
    (h : pyContainsChar c x = false) (rest : PyStr) :
    pySplitAll c (x ++ c :: rest) = x :: pySplitAll c rest := by
  induction x with
  | nil =>
    cases hr : pySplitAll c rest <;> simp [pySplitAll, hr]
  | cons a as ih =>
    simp only [pyContainsChar, List.any_cons, Bool.or_eq_false_iff] at h
    rw [List.cons_append, pySplitAll, if_neg (by simp [h.1]),
        ih (by simpa [pyContainsChar] using h.2)]

lemma pySplitAll_intercalate {c : Char} {pieces : List PyStr}
    (hne : pieces ≠ []) (h : ∀ p ∈ pieces, pyContainsChar c p = false) :
    pySplitAll c (intercalatePy c pieces) = pieces := by
  induction pieces with
  | nil => exact absurd rfl hne
  | cons x xs ih =>
    cases xs with
    | nil => exact pySplitAll_single (h x (List.mem_cons_self x _))
    | cons y ys =>
      rw [intercalatePy, pySplitAll_append (h x (List.mem_cons_self x _)),
          ih (by simp) (fun p hp => h p (List.mem_cons_of_mem _ hp))]

lemma dictInsert_append {d : PyDict} {k : PyStr}
    (h : ∀ p ∈ d, p.1 ≠ k) (v : PyVal) :
    dictInsert d k v = d ++ [(k, v)] := by
  induction d with
  | nil => rfl
  | cons p rest ih =>
    rw [dictInsert, if_neg (h p (List.mem_cons_self p rest)),
        ih (fun q hq => h q (List.mem_cons_of_mem _ hq)), List.cons_append]

lemma renderInt_plain (v : Int) :
    ∀ c ∈ renderInt v, (c == ',') = false ∧ (c == '=') = false := by
  intro c hc
  unfold renderInt at hc
  by_cases hv : v < 0
  · rw [if_pos hv] at hc
    rcases List.mem_cons.mp hc with rfl | hc
    · exact ⟨by decide, by decide⟩
    · have h := renderNat_plain _ c hc
      exact ⟨h.2.2.2.1, h.2.2.2.2.1⟩
  · rw [if_neg hv] at hc
    have h := renderNat_plain _ c hc
    exact ⟨h.2.2.2.1, h.2.2.2.2.1⟩

lemma encodePair_contains_eq (kv : PyStr × Int) :
    pyContainsChar '=' (encodePair kv) = true := by
  simp [encodePair, pyContainsChar]

lemma encodePair_no_comma (kv : PyStr × Int)
    (hk : pyContainsChar ',' kv.1 = false) :
    pyContainsChar ',' (encodePair kv) = false := by
  simp only [encodePair, pyContainsChar, List.any_append, List.any_cons,
             Bool.or_eq_false_iff]
  refine ⟨by simpa [pyContainsChar] using hk, by decide, ?_⟩
  rw [List.any_eq_false]
  intro c hc
  simp [(renderInt_plain kv.2 c hc).1]

lemma encodePair_ne_nil (kv : PyStr × Int) : encodePair kv ≠ [] := by
  simp [encodePair]

lemma srcPairStep_encodePair (d : PyDict) (kv : PyStr × Int)
    (hk : pyContainsChar '=' kv.1 = false)
    (hd : ∀ p ∈ d, p.1 ≠ kv.1) :
    srcPairStep d (encodePair kv) = d ++ [(kv.1, PyVal.int kv.2)] := by
  rw [srcPairStep, if_pos (encodePair_contains_eq kv)]
  rw [show encodePair kv = kv.1 ++ '=' :: renderInt kv.2 from rfl,
      pySplitOnce_append_first hk]
  dsimp only
  rw [pyInt_renderInt]
  dsimp only
  exact dictInsert_append hd _

lemma foldl_srcPairStep_encode :
    ∀ (fields : List (PyStr × Int)) (d : PyDict),
      (∀ kv ∈ fields, pyContainsChar '=' kv.1 = false) →
      List.Pairwise (fun a b => a.1 ≠ b.1) fields →
      (∀ p ∈ d, ∀ kv ∈ fields, p.1 ≠ kv.1) →
      (fields.map encodePair).foldl srcPairStep d
        = d ++ fields.map (fun kv => (kv.1, PyVal.int kv.2)) := by
  intro fields
  induction fields with
  | nil => intro d _ _ _; simp
  | cons f fs ih =>
    intro d hkeys hdist hd
    rw [List.map_cons, List.foldl_cons,
        srcPairStep_encodePair d f (hkeys f (List.mem_cons_self f fs))
          (fun p hp => hd p hp f (List.mem_cons_self f fs))]
    rw [ih (d ++ [(f.1, PyVal.int f.2)])
          (fun kv hkv => hkeys kv (List.mem_cons_of_mem _ hkv))
          (List.Pairwise.of_cons hdist) ?_]
    · simp
    · intro p hp kv hkv
      rcases List.mem_append.mp hp with hp | hp
      · exact hd p hp kv (List.mem_cons_of_mem _ hkv)
      · have : p = (f.1, PyVal.int f.2) := by simpa using hp
        subst this
        exact (List.pairwise_cons.mp hdist).1 kv hkv

/-- Claim C4 (round trip through `parse_response`).  For any response kind `K`
(kinds are colon-free: the decoder's kind is always what precedes the first
colon) and any finite mapping of keys to integer values (keys, as decodable
pair keys, contain neither `=` nor `,`; a mapping's keys are distinct),
rendering the line `K:k1=v1,...` and decoding it reproduces the kind and the
mapping, every value decoded back as an integer. -/
theorem parse_response_encodeResponse (K : PyStr) (fields : List (PyStr × Int))
    (hK : pyContainsChar ':' K = false)
    (heq : ∀ kv ∈ fields, pyContainsChar '=' kv.1 = false)
    (hcm : ∀ kv ∈ fields, pyContainsChar ',' kv.1 = false)
    (hdist : List.Pairwise (fun a b => a.1 ≠ b.1) fields) :
    parse_response (encodeResponse K fields)
      = (K, fields.map (fun kv => (kv.1, PyVal.int kv.2))) := by
  have hcont : pyContainsChar ':'
      (K ++ ':' :: intercalatePy ',' (fields.map encodePair)) = true := by
    simp [pyContainsChar]
  rw [encodeResponse, parse_response, if_neg (by simp [hcont]),
      pySplitOnce_append_first hK]
  cases fields with
  | nil => simp [intercalatePy]
  | cons f fs =>
    have hne : intercalatePy ',' ((f :: fs).map encodePair) ≠ [] := by
      rcases fs with _ | ⟨g, gs⟩
      · simpa [intercalatePy] using encodePair_ne_nil f
      · simp [intercalatePy]
    dsimp only
    rw [if_neg hne, pySplitAll_intercalate (by simp) ?_,
        foldl_srcPairStep_encode (f :: fs) [] heq hdist (by simp)]
    · simp
    · intro p hp
      obtain ⟨kv, hkv, rfl⟩ := List.mem_map.mp hp
      exact encodePair_no_comma kv (hcm kv hkv)

/-- Witness for C4 at a concrete `PROGRESS` line. -/
theorem parse_response_encodeResponse_witness :
    pyContainsChar ':' "PROGRESS".data = false ∧
    parse_response
        (encodeResponse "PROGRESS".data [("CYCLE".data, 12), ("TARGET".data, 50)])
      = ("PROGRESS".data,
         [("CYCLE".data, PyVal.int 12), ("TARGET".data, PyVal.int 50)]) := by
  refine ⟨by decide, ?_⟩
  rw [parse_response_encodeResponse "PROGRESS".data
        [("CYCLE".data, 12), ("TARGET".data, 50)]
        (by decide) (by decide) (by decide) (by decide)]
  decide

/-! ## Transport claims: disconnect, send, connect (C3, C6, C8, C10) -/

/-- Claim C3, counterexample.  The claim says two successive `disconnect` calls
produce *exactly one* `connection changed: false` notification.  In the
source (lines 99-117) the notification at the end of `disconnect` is
unconditional, so a second call fires it again: from a connected manager with
the callback registered, two calls yield two notifications, not one. -/
theorem disconnect_twice_notification_count :
    ¬ (((disconnect ⟨some ⟨"COM3".data, 115200, 2⟩, true, some "COM3".data,
           false, true⟩).2 ++
        (disconnect (disconnect ⟨some ⟨"COM3".data, 115200, 2⟩, true,
           some "COM3".data, false, true⟩).1).2).length = 1) := by
  decide

/-- Claim C3, amended.  `disconnect` is idempotent on the manager's state
(receive loop signalled to stop, handle cleared — close errors being
suppressed, port name cleared, connected flag false), and each call —
not only the first — fires exactly one `connection changed: false`
notification when the callback is registered, so two calls in succession
produce two such notifications and no error. -/
theorem disconnect_idempotent_state (s : BTState)
    (hcb : s.has_conn_callback = true) :
    (disconnect (disconnect s).1).1 = (disconnect s).1 ∧
    (disconnect s).2 = [BTNotif.connChanged false] ∧
    (disconnect (disconnect s).1).2 = [BTNotif.connChanged false] ∧
    (disconnect s).1.stop_reader = true ∧
    (disconnect s).1.serial_port = none ∧
    (disconnect s).1.connected = false ∧
    (disconnect s).1.port_name = none := by
  simp [disconnect, hcb]

/-- Witness for the amended C3 at a concrete connected manager. -/
theorem disconnect_idempotent_state_witness :
    (⟨some ⟨"COM3".data, 115200, 2⟩, true, some "COM3".data, false, true⟩ :
        BTState).has_conn_callback = true ∧
    (disconnect (disconnect ⟨some ⟨"COM3".data, 115200, 2⟩, true,
        some "COM3".data, false, true⟩).1).1 =
      (disconnect ⟨some ⟨"COM3".data, 115200, 2⟩, true, some "COM3".data,
        false, true⟩).1 := by
  exact ⟨rfl, (disconnect_idempotent_state _ rfl).1⟩

/-- Claim C6, counterexample.  The claim says `send_command` writes *exactly the
given text* followed by a newline; the source (line 125) writes
`command.strip() + "\n"`, so text with surrounding whitespace is not written
verbatim: sending `" PING "` writes `"PING\n"`. -/
theorem send_command_not_verbatim :
    ¬ ((send_command ⟨some ⟨"COM3".data, 115200, 2⟩, true, some "COM3".data,
          false, true⟩ " PING ".data true).2.2.1
        = [Written.line (" PING ".data ++ ['\n'])]) ∧
    (send_command ⟨some ⟨"COM3".data, 115200, 2⟩, true, some "COM3".data,
        false, true⟩ " PING ".data true).2.2.1
      = [Written.line "PING\n".data] := by
  constructor <;> decide

/-- Claim C6, amended (`send_command`, lines 119-132).  On a connected manager,
a successful write transmits exactly the given text stripped of leading and
trailing whitespace followed by a single newline, flushes, and returns
success with the state unchanged; a raising write returns failure and takes
the internal disconnect-handling path — connected flag cleared and
`connection changed: false` notified (when the callback is registered) —
with no reconnect attempt, the handle being left in place. -/
theorem send_command_spec (s : BTState) (cmd : PyStr) (writeOk : Bool)
    (hc : s.connected = true) (hp : s.serial_port ≠ none) :
    (writeOk = true →
      send_command s cmd writeOk
        = (s, true, [Written.line (pyStrip cmd ++ ['\n'])], [])) ∧
    (writeOk = false →
      send_command s cmd writeOk
        = ({ s with connected := false }, false, [],
           if s.has_conn_callback then [BTNotif.connChanged false] else [])) := by
  constructor <;> intro hw <;> subst hw <;>
    simp [send_command, handle_disconnect, hc, hp]

/-- Witness for the amended C6: a concrete successful send of `" PING "`. -/
theorem send_command_spec_witness :
    (⟨some ⟨"COM3".data, 115200, 2⟩, true, some "COM3".data, false, true⟩ :
        BTState).connected = true ∧
    send_command ⟨some ⟨"COM3".data, 115200, 2⟩, true, some "COM3".data,
        false, true⟩ " PING ".data true
      = (⟨some ⟨"COM3".data, 115200, 2⟩, true, some "COM3".data, false, true⟩,
         true, [Written.line "PING\n".data], []) := by
  refine ⟨rfl, ?_⟩
  rw [(send_command_spec _ " PING ".data true rfl (by decide)).1 rfl]
  decide

/-- Claim C8 (`connect`, lines 61-97).  Whenever the underlying serial open
fails (`openOk = false` models the raised `SerialException`, whatever its OS
cause), `connect` returns `False` rather than raising — it is a total
function — and leaves the manager disconnected: connected flag false and no
stored handle. -/
theorem connect_failure_leaves_disconnected (s : BTState) (port : PyStr)
    (pingOk : Bool) :
    (connect s port false pingOk).2.1 = false ∧
    (connect s port false pingOk).1.connected = false ∧
    (connect s port false pingOk).1.serial_port = none := by
  by_cases h : s.connected <;> simp [connect, disconnect, h]

/-- Claim C10 (`send_command` lines 121-122, `send_bytes` lines 136-137).
When the manager is not connected — connected flag false or no open
handle — both send operations return `False` immediately: no bytes are
written, no notification fires, and the state is unchanged. -/
theorem send_when_disconnected (s : BTState) (cmd : PyStr) (data : List Nat)
    (wOk1 wOk2 : Bool) (h : s.connected = false ∨ s.serial_port = none) :
    send_command s cmd wOk1 = (s, false, [], []) ∧
    send_bytes s data wOk2 = (s, false, [], []) := by
  rcases h with h | h <;> simp [send_command, send_bytes, h]

/-- Witness for C10 at a concrete disconnected manager. -/
theorem send_when_disconnected_witness :
    ((⟨none, false, none, true, true⟩ : BTState).connected = false ∨
      (⟨none, false, none, true, true⟩ : BTState).serial_port = none) ∧
    send_command ⟨none, false, none, true, true⟩ "STATUS".data true
      = (⟨none, false, none, true, true⟩, false, [], []) := by
  exact ⟨Or.inl rfl,
    (send_when_disconnected _ "STATUS".data [1, 2] true true (Or.inl rfl)).1⟩

/-! ## Cycle-count clamping and the infinite-mode sentinel (C7) -/

lemma renderInt_injective : Function.Injective renderInt := by
  intro a b h
  have ha := pyInt_renderInt a
  rw [h, pyInt_renderInt] at ha
  exact (Option.some.injEq _ _).mp ha.symm

lemma cmd_set_cycles_inj {a b : Int} (h : cmd_set_cycles a = cmd_set_cycles b) :
    a = b := by
  unfold cmd_set_cycles at h
  exact renderInt_injective (List.append_cancel_left h)

/-- Claim C7 (`_adjust_cycles` lines 801-807, `_start_cycles` lines 837-856).
The cycle-adjustment operation always clamps the stored finite target to
`[1, 100000]` (and sends it), and infinite mode is a separate boolean flag,
not a user target of 0: starting a run sends `SET_CYCLES:0` exactly when the
infinite flag is set, and `SET_CYCLES:<target>` with the finite
`cycles_var` target otherwise (the finite target, maintained by the clamp,
is at least 1, so the two are distinguishable on the wire). -/
theorem cycles_clamped_and_start_sentinel (s : AppState) (delta : Int)
    (btc : Bool) (hcv : 1 ≤ s.cycles_var) :
    (1 ≤ (adjust_cycles s delta).1.cycles_var ∧
     (adjust_cycles s delta).1.cycles_var ≤ 100000 ∧
     (adjust_cycles s delta).2
       = [cmd_set_cycles (max 1 (min 100000 (s.cycles_var + delta)))]) ∧
    (btc = true →
      (start_cycles s btc).2
        = [cmd_set_cycles (if s.infinite_cycles then 0 else s.cycles_var),
           cmd_start] ∧
      ((start_cycles s btc).2.head? = some (cmd_set_cycles 0)
        ↔ s.infinite_cycles = true)) := by
  constructor
  · refine ⟨?_, ?_, rfl⟩
    · simp [adjust_cycles]
    · simp only [adjust_cycles]
      omega
  · intro hbtc
    subst hbtc
    have hcmds : (start_cycles s true).2
        = [cmd_set_cycles (if s.infinite_cycles then 0 else s.cycles_var),
           cmd_start] := by
      by_cases hinf : s.infinite_cycles <;> simp [start_cycles, hinf]
    refine ⟨hcmds, ?_⟩
    rw [hcmds]
    constructor
    · intro hhead
      by_contra hinf
      simp only [Bool.not_eq_true] at hinf
      rw [hinf] at hhead
      simp at hhead
      have := cmd_set_cycles_inj hhead
      omega
    · intro hinf
      rw [hinf]
      simp

/-- Witness for C7 at a concrete app state with a finite target of 50. -/
theorem cycles_clamped_and_start_sentinel_witness :
    1 ≤ (⟨false, false, PyVal.int 0, PyVal.int 50, false, 50, [], [],
          false, false, false, none, 0, []⟩ : AppState).cycles_var ∧
    (start_cycles ⟨false, false, PyVal.int 0, PyVal.int 50, false, 50, [], [],
        false, false, false, none, 0, []⟩ true).2
      = [cmd_set_cycles 50, cmd_start] := by
  refine ⟨by decide, ?_⟩
  rw [((cycles_clamped_and_start_sentinel
        ⟨false, false, PyVal.int 0, PyVal.int 50, false, 50, [], [],
         false, false, false, none, 0, []⟩ 10 true (by decide)).2 rfl).1]
  decide

/-! ## OTA ready latch and the awaiting-ready timeout (C2) -/

lemma process_response_ota_fields (s : AppState) (data : PyStr) :
    (process_response s data).ota_abort_flag = s.ota_abort_flag ∧
    (process_response s data).ota_ready_event
      = (s.ota_ready_event || otaTrigger data) ∧
    (process_response s data).ota_error_message
      = (if otaErrTrigger data then some data else s.ota_error_message) ∧
    (process_response s data).ota_in_progress
      = (if otaErrTrigger data then false else s.ota_in_progress) := by
  by_cases h1 : (parse_response data).1 = "PONG".data
  · simp [process_response, otaTrigger, otaErrTrigger, h1]
  by_cases h2 : (parse_response data).1 = "STATUS".data
  · simp [process_response, otaTrigger, otaErrTrigger, h1, h2]
  by_cases h3 : (parse_response data).1 = "PROGRESS".data
  · by_cases hinf : s.infinite_cycles <;>
      simp [process_response, otaTrigger, otaErrTrigger, h1, h2, h3, hinf]
  by_cases h4 : (parse_response data).1 = "COMPLETE".data
  · simp [process_response, otaTrigger, otaErrTrigger, h1, h2, h3, h4]
  by_cases h5 : (parse_response data).1 = "OK".data
  · by_cases hsub : pyInStr "OTA_READY".data data <;>
      simp [process_response, otaTrigger, otaErrTrigger, h1, h2, h3, h4, h5, hsub]
  by_cases h6 : (parse_response data).1 = "VERSION".data
  · simp [process_response, otaTrigger, otaErrTrigger, h1, h2, h3, h4, h5, h6]
  by_cases h7 : (parse_response data).1 = "OTA_PROGRESS".data
  · rcases hsp : pySplitAll ':' data with _ | ⟨a, _ | ⟨p, rest2⟩⟩
    · simp [process_response, otaTrigger, otaErrTrigger,
            h1, h2, h3, h4, h5, h6, h7, hsp]
    · simp [process_response, otaTrigger, otaErrTrigger,
            h1, h2, h3, h4, h5, h6, h7, hsp]
    · rcases hpi : pyInt p with _ | n <;>
        simp [process_response, otaTrigger, otaErrTrigger,
              h1, h2, h3, h4, h5, h6, h7, hsp, hpi]
  by_cases h8 : (parse_response data).1 = "ERR".data
  · by_cases hsub : pyInStr "OTA".data data
    · by_cases hip : s.ota_in_progress <;>
        simp [process_response, ota_finish_state, otaTrigger, otaErrTrigger,
              h1, h2, h3, h4, h5, h6, h7, h8, hsub, hip]
    · simp [process_response, otaTrigger, otaErrTrigger,
            h1, h2, h3, h4, h5, h6, h7, h8, hsub]
  · simp [process_response, otaTrigger, otaErrTrigger,
          h1, h2, h3, h4, h5, h6, h7, h8]

lemma foldl_process_response_quiet {lines : List PyStr}
    (h : ∀ l ∈ lines, otaTrigger l = false) (s : AppState) :
    (lines.foldl process_response s).ota_ready_event = s.ota_ready_event ∧
    (lines.foldl process_response s).ota_error_message = s.ota_error_message ∧
    (lines.foldl process_response s).ota_abort_flag = s.ota_abort_flag ∧
    (lines.foldl process_response s).ota_in_progress = s.ota_in_progress := by
  induction lines generalizing s with
  | nil => simp
  | cons l ls ih =>
    have hl : otaTrigger l = false := h l (List.mem_cons_self l ls)
    have hle : otaErrTrigger l = false := by
      have := hl
      unfold otaTrigger at this
      exact (Bool.or_eq_false_iff.mp this).2
    obtain ⟨hab, hready, herr, hip⟩ := process_response_ota_fields s l
    have ihl := ih (fun x hx => h x (List.mem_cons_of_mem _ hx))
      (process_response s l)
    simp only [List.foldl_cons] at *
    rw [ihl.1, ihl.2.1, ihl.2.2.1, ihl.2.2.2, hready, herr, hab, hip, hl, hle]
    simp

/-- Claim C2 (`_process_response` lines 942-964, `_ota_upload_thread` lines
661-686).  (a) One dispatch latches the ready event exactly when it was
already latched or the line is an `OK` whose raw text contains `OTA_READY`
or an `ERR` whose raw text contains `OTA` — the latter also recording the
raw line as the device error message.  (b) The ready wait is bounded by
`ready_timeout = 5.0`; if no latching line arrives within the window the
session ends `Failed("Timeout waiting for device ready")` and the OTA
session fields are fully cleared afterwards: not in progress, abort flag
clear, latch clear, no error message, progress 0. -/
theorem ota_ready_latch_and_timeout (s : AppState) (fs : Nat)
    (lines : List PyStr) (hquiet : ∀ l ∈ lines, otaTrigger l = false) :
    (∀ (t : AppState) (data : PyStr),
      ((process_response t data).ota_ready_event = true ↔
        (t.ota_ready_event = true ∨
         ((parse_response data).1 = "OK".data ∧
            pyInStr "OTA_READY".data data = true) ∨
         ((parse_response data).1 = "ERR".data ∧
            pyInStr "OTA".data data = true))) ∧
      (((parse_response data).1 = "ERR".data ∧ pyInStr "OTA".data data = true) →
        (process_response t data).ota_error_message = some data)) ∧
    (ota_ready_timeout = 5 ∧
     (ota_await_ready ((ota_thread_begin (start_ota_upload_state s) fs).1)
        lines).2
       = AwaitOutcome.finished "Timeout waiting for device ready".data ∧
     ((ota_await_ready ((ota_thread_begin (start_ota_upload_state s) fs).1)
        lines).1.ota_in_progress = false ∧
      (ota_await_ready ((ota_thread_begin (start_ota_upload_state s) fs).1)
        lines).1.ota_abort_flag = false ∧
      (ota_await_ready ((ota_thread_begin (start_ota_upload_state s) fs).1)
        lines).1.ota_ready_event = false ∧
      (ota_await_ready ((ota_thread_begin (start_ota_upload_state s) fs).1)
        lines).1.ota_error_message = none ∧
      (ota_await_ready ((ota_thread_begin (start_ota_upload_state s) fs).1)
        lines).1.ota_progress_var = 0)) := by
  constructor
  · intro t data
    obtain ⟨-, hready, herr, -⟩ := process_response_ota_fields t data
    constructor
    · rw [hready]
      simp [otaTrigger, otaErrTrigger, Bool.or_eq_true, Bool.and_eq_true,
            decide_eq_true_iff, or_assoc]
    · intro htrig
      rw [herr, if_pos]
      unfold otaErrTrigger
      simp [htrig.1, htrig.2]
  · have hinit : ((ota_thread_begin (start_ota_upload_state s) fs).1.ota_ready_event
          = false) ∧
        ((ota_thread_begin (start_ota_upload_state s) fs).1.ota_error_message
          = none) ∧
        ((ota_thread_begin (start_ota_upload_state s) fs).1.ota_abort_flag
          = false) ∧
        ((ota_thread_begin (start_ota_upload_state s) fs).1.ota_in_progress
          = true) := by
      simp [ota_thread_begin, start_ota_upload_state]
    obtain ⟨hfr, hfe, hfa, hfi⟩ :=
      foldl_process_response_quiet hquiet
        ((ota_thread_begin (start_ota_upload_state s) fs).1)
    rw [hinit.1] at hfr
    rw [hinit.2.1] at hfe
    rw [hinit.2.2.1] at hfa
    rw [hinit.2.2.2] at hfi
    refine ⟨rfl, ?_, ?_, ?_, ?_, ?_, ?_⟩ <;>
      simp [ota_await_ready, ota_finish_state, hfr, hfe, hfa]

/-- Witness for C2: a window containing only a `PONG` line times out. -/
theorem ota_ready_latch_and_timeout_witness :
    (∀ l ∈ ["PONG".data], otaTrigger l = false) ∧
    (ota_await_ready ((ota_thread_begin (start_ota_upload_state
        ⟨false, false, PyVal.int 0, PyVal.int 50, false, 50, [], [],
         false, false, false, none, 0, []⟩) 2048).1) ["PONG".data]).2
      = AwaitOutcome.finished "Timeout waiting for device ready".data := by
  refine ⟨by decide, ?_⟩
  exact ((ota_ready_latch_and_timeout
    ⟨false, false, PyVal.int 0, PyVal.int 50, false, 50, [], [],
     false, false, false, none, 0, []⟩ 2048 ["PONG".data] (by decide)).2).2.1

/-! ## OTA transfer loop lemmas (C5, C9) -/

lemma ota_loopF_step (env : OtaEnv) (fs fuel : Nat) (file : List Nat)
    (bs i : Nat) (hbs : bs < fs) (ha : env.abortAt i = false)
    (hc : env.connectedAt i = true) (hst : env.stallAt i = false)
    (hsend : env.sendOkAt i = true) (hne : file.take ota_chunk_size ≠ []) :
    ota_transfer_loopF env fs (fuel + 1) file bs i
      = ((ota_transfer_loopF env fs fuel (file.drop ota_chunk_size)
            (bs + (file.take ota_chunk_size).length) (i + 1)).1,
         OtaEvent.chunkSent (file.take ota_chunk_size).length ::
         OtaEvent.progress
           (((bs + (file.take ota_chunk_size).length : Nat) : ℚ) / (fs : ℚ))
           (bs + (file.take ota_chunk_size).length) fs ::
         (ota_transfer_loopF env fs fuel (file.drop ota_chunk_size)
            (bs + (file.take ota_chunk_size).length) (i + 1)).2) := by
  simp [ota_transfer_loopF, hbs, ha, hc, hst, hsend, hne]

lemma ota_loopF_done (env : OtaEnv) (fs fuel : Nat) (file : List Nat)
    (bs i : Nat) (hbs : ¬ bs < fs) :
    ota_transfer_loopF env fs (fuel + 1) file bs i
      = (.finished "Upload complete - device restarting".data true, []) := by
  simp [ota_transfer_loopF, hbs]

lemma ota_loopF_abort_now (env : OtaEnv) (fs fuel : Nat) (file : List Nat)
    (bs i : Nat) (hbs : bs < fs) (ha : env.abortAt i = true) :
    ota_transfer_loopF env fs (fuel + 1) file bs i
      = (.finished "Aborted by user".data false, []) := by
  simp [ota_transfer_loopF, hbs, ha]

lemma ota_loopF_disconnect (env : OtaEnv) (fs fuel : Nat) (file : List Nat)
    (bs i : Nat) (hbs : bs < fs) (ha : env.abortAt i = false)
    (hc : env.connectedAt i = false) :
    ota_transfer_loopF env fs (fuel + 1) file bs i
      = (.finished "Connection lost".data false, []) := by
  simp [ota_transfer_loopF, hbs, ha, hc]

lemma ota_loopF_stall (env : OtaEnv) (fs fuel : Nat) (file : List Nat)
    (bs i : Nat) (hbs : bs < fs) (ha : env.abortAt i = false)
    (hc : env.connectedAt i = true) (hst : env.stallAt i = true) :
    ota_transfer_loopF env fs (fuel + 1) file bs i
      = (.finished "Upload timeout".data false, []) := by
  simp [ota_transfer_loopF, hbs, ha, hc, hst]

lemma ota_loopF_eof (env : OtaEnv) (fs fuel : Nat) (file : List Nat)
    (bs i : Nat) (hbs : bs < fs) (ha : env.abortAt i = false)
    (hc : env.connectedAt i = true) (hst : env.stallAt i = false)
    (hemp : file.take ota_chunk_size = []) :
    ota_transfer_loopF env fs (fuel + 1) file bs i
      = (.finished "Upload complete - device restarting".data true, []) := by
  simp [ota_transfer_loopF, hbs, ha, hc, hst, hemp]

lemma ota_loopF_sendfail (env : OtaEnv) (fs fuel : Nat) (file : List Nat)
    (bs i : Nat) (hbs : bs < fs) (ha : env.abortAt i = false)
    (hc : env.connectedAt i = true) (hst : env.stallAt i = false)
    (hne : file.take ota_chunk_size ≠ []) (hsend : env.sendOkAt i = false) :
    ota_transfer_loopF env fs (fuel + 1) file bs i
      = (.finished "Failed to send data".data false, []) := by
  simp [ota_transfer_loopF, hbs, ha, hc, hst, hne, hsend]

lemma ota_loopF_progress_frac (env : OtaEnv) (fs : Nat) :
    ∀ (fuel : Nat) (file : List Nat) (bs i : Nat) (f : ℚ) (b t : Nat),
      OtaEvent.progress f b t ∈ (ota_transfer_loopF env fs fuel file bs i).2 →
      t = fs ∧ f = (b : ℚ) / (t : ℚ) := by
  intro fuel
  induction fuel with
  | zero =>
    intro file bs i f b t h
    simp [ota_transfer_loopF] at h
  | succ fuel ih =>
    intro file bs i f b t h
    by_cases h1 : bs < fs
    case neg =>
      rw [ota_loopF_done env fs fuel file bs i h1] at h
      simp at h
    by_cases h2 : env.abortAt i = true
    · rw [ota_loopF_abort_now env fs fuel file bs i h1 h2] at h
      simp at h
    have h2f : env.abortAt i = false := by simpa using h2
    by_cases h3 : env.connectedAt i = true
    case neg =>
      rw [ota_loopF_disconnect env fs fuel file bs i h1 h2f
            (by simpa using h3)] at h
      simp at h
    by_cases h4 : env.stallAt i = true
    · rw [ota_loopF_stall env fs fuel file bs i h1 h2f h3 h4] at h
      simp at h
    have h4f : env.stallAt i = false := by simpa using h4
    by_cases h5 : file.take ota_chunk_size = []
    · rw [ota_loopF_eof env fs fuel file bs i h1 h2f h3 h4f h5] at h
      simp at h
    by_cases h6 : env.sendOkAt i = true
    case neg =>
      rw [ota_loopF_sendfail env fs fuel file bs i h1 h2f h3 h4f h5
            (by simpa using h6)] at h
      simp at h
    rw [ota_loopF_step env fs fuel file bs i h1 h2f h3 h4f h6 h5] at h
    rcases List.mem_cons.mp h with h | h
    · exact absurd h (by simp)
    rcases List.mem_cons.mp h with h | h
    · obtain ⟨hf, hb, ht⟩ := (OtaEvent.progress.injEq _ _ _ _ _ _).mp h
      subst hb
      subst ht
      exact ⟨rfl, hf⟩
    · exact ih _ _ _ _ _ _ h

lemma countChunks_chunk_progress (a : Nat) (f : ℚ) (b t : Nat)
    (r : List OtaEvent) :
    countChunks (OtaEvent.chunkSent a :: OtaEvent.progress f b t :: r)
      = countChunks r + 1 := by
  simp [countChunks, List.countP_cons]

lemma ota_loopF_abort_bound (env : OtaEnv) (fs k : Nat)
    (habort : ∀ j, k ≤ j → env.abortAt j = true) :
    ∀ (fuel : Nat) (file : List Nat) (bs i : Nat),
      countChunks (ota_transfer_loopF env fs fuel file bs i).2 ≤ k - i := by
  intro fuel
  induction fuel with
  | zero =>
    intro file bs i
    simp [ota_transfer_loopF, countChunks]
  | succ fuel ih =>
    intro file bs i
    by_cases h1 : bs < fs
    case neg =>
      rw [ota_loopF_done env fs fuel file bs i h1]
      simp [countChunks]
    by_cases h2 : env.abortAt i = true
    · rw [ota_loopF_abort_now env fs fuel file bs i h1 h2]
      simp [countChunks]
    have h2f : env.abortAt i = false := by simpa using h2
    have hik : i < k := by
      by_contra hik
      exact h2 (habort i (by omega))
    by_cases h3 : env.connectedAt i = true
    case neg =>
      rw [ota_loopF_disconnect env fs fuel file bs i h1 h2f (by simpa using h3)]
      simp [countChunks]
    by_cases h4 : env.stallAt i = true
    · rw [ota_loopF_stall env fs fuel file bs i h1 h2f h3 h4]
      simp [countChunks]
    have h4f : env.stallAt i = false := by simpa using h4
    by_cases h5 : file.take ota_chunk_size = []
    · rw [ota_loopF_eof env fs fuel file bs i h1 h2f h3 h4f h5]
      simp [countChunks]
    by_cases h6 : env.sendOkAt i = true
    case neg =>
      rw [ota_loopF_sendfail env fs fuel file bs i h1 h2f h3 h4f h5
            (by simpa using h6)]
      simp [countChunks]
    rw [ota_loopF_step env fs fuel file bs i h1 h2f h3 h4f h6 h5]
    dsimp only
    rw [countChunks_chunk_progress]
    have hrec := ih (file.drop ota_chunk_size)
      (bs + (file.take ota_chunk_size).length) (i + 1)
    omega

/-- Claim C5 (`_ota_upload_thread` lines 688-723).  In general every progress
notification the transfer loop emits reports the fraction
`bytes_sent / file_size` of its total; and for an OTA session with
`fileSize = 2048` and the fixed 512-byte chunk size, a transfer with no
abort, no disconnect, no stall and successful writes sends exactly 4 chunks,
each followed by one progress notification, with fractions
0.25, 0.50, 0.75, 1.0 in that order. -/
theorem ota_progress_fractions :
    (∀ (env : OtaEnv) (fs : Nat) (file : List Nat) (bs i : Nat)
       (f : ℚ) (b t : Nat),
      OtaEvent.progress f b t ∈ (ota_transfer_loop env fs file bs i).2 →
      t = fs ∧ f = (b : ℚ) / (t : ℚ)) ∧
    ota_chunk_size = 512 ∧
    ota_transfer_loop
        ⟨fun _ => false, fun _ => true, fun _ => false, fun _ => true⟩
        2048 (List.replicate 2048 0) 0 0
      = (.finished "Upload complete - device restarting".data true,
         [OtaEvent.chunkSent 512, OtaEvent.progress (1/4) 512 2048,
          OtaEvent.chunkSent 512, OtaEvent.progress (1/2) 1024 2048,
          OtaEvent.chunkSent 512, OtaEvent.progress (3/4) 1536 2048,
          OtaEvent.chunkSent 512, OtaEvent.progress 1 2048 2048]) := by
  refine ⟨fun env fs file bs i f b t h =>
    ota_loopF_progress_frac env fs _ file bs i f b t h, rfl, ?_⟩
  have htk : ∀ m : Nat, 512 ≤ m →
      (List.take ota_chunk_size (List.replicate m (0:Nat))).length = 512 := by
    intro m hm
    simp only [ota_chunk_size, List.take_replicate, List.length_replicate]
    omega
  have hne : ∀ m : Nat, 512 ≤ m →
      List.take ota_chunk_size (List.replicate m (0:Nat)) ≠ [] := by
    intro m hm hx
    have h2 := htk m hm
    rw [hx] at h2
    simp at h2
  have hdr : ∀ m : Nat,
      List.drop ota_chunk_size (List.replicate m (0:Nat))
        = List.replicate (m - 512) 0 := by
    intro m
    simp only [ota_chunk_size, List.drop_replicate]
  unfold ota_transfer_loop
  rw [show (List.replicate 2048 (0:Nat)).length + 1 = 2048 + 1 by rw [List.length_replicate]]
  rw [ota_loopF_step _ _ _ _ _ _ (by norm_num) rfl rfl rfl rfl
        (hne 2048 (by norm_num))]
  rw [htk 2048 (by norm_num), hdr 2048]
  norm_num
  rw [show (2048 : Nat) = 2047 + 1 from rfl,
      ota_loopF_step _ _ _ _ _ _ (by norm_num) rfl rfl rfl rfl
        (hne 1536 (by norm_num))]
  rw [htk 1536 (by norm_num), hdr 1536]
  norm_num
  rw [show (2047 : Nat) = 2046 + 1 from rfl,
      ota_loopF_step _ _ _ _ _ _ (by norm_num) rfl rfl rfl rfl
        (hne 1024 (by norm_num))]
  rw [htk 1024 (by norm_num), hdr 1024]
  norm_num
  rw [show (2046 : Nat) = 2045 + 1 from rfl,
      ota_loopF_step _ _ _ _ _ _ (by norm_num) rfl rfl rfl rfl
        (hne 512 (by norm_num))]
  rw [htk 512 (by norm_num), hdr 512]
  norm_num
  rw [show (2045 : Nat) = 2044 + 1 from rfl,
      ota_loopF_done _ _ _ _ _ _ (by norm_num)]
  norm_num

/-- Witness for C5: the second progress event of the concrete 2048-byte
transfer reports fraction 1/4 = 512/2048. -/
theorem ota_progress_fractions_witness :
    OtaEvent.progress (1/4) 512 2048 ∈
      (ota_transfer_loop
        ⟨fun _ => false, fun _ => true, fun _ => false, fun _ => true⟩
        2048 (List.replicate 2048 0) 0 0).2 ∧
    ((2048 : Nat) = 2048 ∧ (1/4 : ℚ) = ((512 : Nat) : ℚ) / ((2048 : Nat) : ℚ)) := by
  have hmem : OtaEvent.progress (1/4) 512 2048 ∈
      (ota_transfer_loop
        ⟨fun _ => false, fun _ => true, fun _ => false, fun _ => true⟩
        2048 (List.replicate 2048 0) 0 0).2 := by
    rw [ota_progress_fractions.2.2]
    simp
  exact ⟨hmem, ota_progress_fractions.1 _ 2048 _ 0 0 _ _ _ hmem⟩

/-- Claim C9 (`_ota_upload_thread` lines 688-714, `_abort_ota_upload` lines
655-659).  Once the abort flag is set (and stays set — `threading.Event` is
a latch): the transfer loop sends no chunk at or after the first checkpoint
that observes it (at most `k - i` chunks when the flag is set from
iteration `k` on); a checkpoint observing the flag with bytes remaining ends
the session `Aborted by user` immediately, sending nothing; the abort
request itself transmits an `OTA_ABORT` command to the device whenever an
upload is in progress; and concretely, aborting after chunk 2 of the 4-chunk
2048-byte transfer yields exactly 2 chunks and the `Aborted by user`
outcome. -/
theorem ota_abort_stops_transfer (env : OtaEnv) (k : Nat)
    (habort : ∀ j, k ≤ j → env.abortAt j = true) :
    (∀ (fs : Nat) (file : List Nat) (bs i : Nat),
      countChunks (ota_transfer_loop env fs file bs i).2 ≤ k - i) ∧
    (∀ (env2 : OtaEnv) (fs : Nat) (file : List Nat) (bs i : Nat),
      env2.abortAt i = true → bs < fs →
      ota_transfer_loop env2 fs file bs i
        = (.finished "Aborted by user".data false, [])) ∧
    (∀ s : AppState, s.ota_in_progress = true →
      abort_ota_upload s
        = ({ s with ota_abort_flag := true }, ["OTA_ABORT".data])) ∧
    ota_transfer_loop
        ⟨fun j => decide (2 ≤ j), fun _ => true, fun _ => false, fun _ => true⟩
        2048 (List.replicate 2048 0) 0 0
      = (.finished "Aborted by user".data false,
         [OtaEvent.chunkSent 512, OtaEvent.progress (1/4) 512 2048,
          OtaEvent.chunkSent 512, OtaEvent.progress (1/2) 1024 2048]) := by
  refine ⟨fun fs file bs i =>
      ota_loopF_abort_bound env fs k habort (file.length + 1) file bs i,
    fun env2 fs file bs i ha hbs =>
      ota_loopF_abort_now env2 fs file.length file bs i hbs ha,
    fun s h => by simp [abort_ota_upload, h], ?_⟩
  have htk : ∀ m : Nat, 512 ≤ m →
      (List.take ota_chunk_size (List.replicate m (0:Nat))).length = 512 := by
    intro m hm
    simp only [ota_chunk_size, List.take_replicate, List.length_replicate]
    omega
  have hne : ∀ m : Nat, 512 ≤ m →
      List.take ota_chunk_size (List.replicate m (0:Nat)) ≠ [] := by
    intro m hm hx
    have h2 := htk m hm
    rw [hx] at h2
    simp at h2
  have hdr : ∀ m : Nat,
      List.drop ota_chunk_size (List.replicate m (0:Nat))
        = List.replicate (m - 512) 0 := by
    intro m
    simp only [ota_chunk_size, List.drop_replicate]
  unfold ota_transfer_loop
  rw [show (List.replicate 2048 (0:Nat)).length + 1 = 2048 + 1
        by rw [List.length_replicate]]
  rw [ota_loopF_step _ _ _ _ _ _ (by norm_num) rfl rfl rfl rfl
        (hne 2048 (by norm_num))]
  rw [htk 2048 (by norm_num), hdr 2048]
  norm_num
  rw [show (2048 : Nat) = 2047 + 1 from rfl,
      ota_loopF_step _ _ _ _ _ _ (by norm_num) rfl rfl rfl rfl
        (hne 1536 (by norm_num))]
  rw [htk 1536 (by norm_num), hdr 1536]
  norm_num
  rw [show (2047 : Nat) = 2046 + 1 from rfl,
      ota_loopF_abort_now _ _ _ _ _ _ (by norm_num) rfl]
  norm_num

/-- Witness for C9 at the concrete abort-after-two-chunks environment. -/
theorem ota_abort_stops_transfer_witness :
    (∀ j, 2 ≤ j →
      (⟨fun j => decide (2 ≤ j), fun _ => true, fun _ => false,
        fun _ => true⟩ : OtaEnv).abortAt j = true) ∧
    countChunks (ota_transfer_loop
        ⟨fun j => decide (2 ≤ j), fun _ => true, fun _ => false, fun _ => true⟩
        2048 (List.replicate 2048 0) 0 0).2 ≤ 2 := by
  refine ⟨fun j hj => decide_eq_true hj, ?_⟩
  have h := (ota_abort_stops_transfer
      ⟨fun j => decide (2 ≤ j), fun _ => true, fun _ => false, fun _ => true⟩
      2 (fun j hj => decide_eq_true hj)).1 2048 (List.replicate 2048 0) 0 0
  simpa only [Nat.sub_zero] using h

end UBA

